import Mathlib

/-!
# Verification of `athenanews` (`src/athenanews/news.py`)

Shallow embedding of the chunking / poll / paginate orchestration of the
Athena news client, together with theorems settling the specification
claims about it.

Modelling conventions:

* Timestamps (`datetime` values) are modelled as integers counting seconds;
  `datetime.timedelta(days = 7)` is `7 * 86400` seconds and
  `(end_dt - start_dt).days` is floor division by `86400` (`Int.fdiv`).
  The ISO string round trip (`fromisoformat` / `isoformat() + "Z"`) is the
  identity on these timestamps and is not modelled separately.
* JSON payloads returned by the remote system for the submit and poll calls
  are modelled as the inductive `PyVal` of Python values (dicts as
  association lists), because `send_initial_query` and `_search_chunk`
  probe them dynamically (`isinstance`, `.get`, truthiness).
* Articles are only ever inspected through `item.get("score", 0)`, so an
  article is modelled as an optional rational score plus an opaque tag;
  a page payload is abstracted to its `data.get('articles', [])` list.
* Python exceptions are modelled by the error type `Err` in `Except`;
  the unbounded poll loop takes a fuel argument, `none` meaning that the
  loop has not terminated within `fuel` status fetches.
* The network is modelled by a `ChunkBehavior`: the transport outcome of
  the one submit call, and response functions for the status fetches and
  the page fetches (both indexed by the `query_id` value actually sent,
  so that theorems can express which requests are, or are never, made).
-/

namespace AthenaNews

/-- A Python value as far as this client inspects one: `None`, a string,
an integer, or a JSON object (dict with string keys). -/
inductive PyVal : Type where
  | vnone : PyVal
  | vstr (s : String) : PyVal
  | vint (n : Int) : PyVal
  | vdict (d : List (String × PyVal)) : PyVal

namespace PyVal

/-- Python truthiness of a `PyVal` (`if not query_id`, `if query_id.get('message')`). -/
def truthy : PyVal → Bool
  | vnone => false
  | vstr s => !s.isEmpty
  | vint n => n != 0
  | vdict d => !d.isEmpty

/-- `isinstance(v, str)`. -/
def isStr : PyVal → Bool
  | vstr _ => true
  | _ => false

/-- The Python type name, as it appears in an `AttributeError`. -/
def typeName : PyVal → String
  | vnone => "NoneType"
  | vstr _ => "str"
  | vint _ => "int"
  | vdict _ => "dict"

/-- `str(v)` (only the string case is ever inspected by a claim). -/
def pyStr : PyVal → String
  | vnone => "None"
  | vstr s => s
  | vint n => toString n
  | vdict _ => "<dict>"

/-- Python `v == s` against a string literal: only a `str` can compare
equal to a string, any other type is simply unequal (no error). -/
def eqStr (v : PyVal) (s : String) : Bool :=
  match v with
  | vstr t => t == s
  | _ => false

/-- Python `v == n` against an int literal: only an `int` can compare
equal to an int, any other type is simply unequal (no error). -/
def eqInt (v : PyVal) (n : Int) : Bool :=
  match v with
  | vint m => m == n
  | _ => false

end PyVal

/-- `d.get(k, default)` on a Python dict. -/
def pyGetD (d : List (String × PyVal)) (k : String) (dflt : PyVal) : PyVal :=
  (d.lookup k).getD dflt

/-- `d.get(k)` on a Python dict (default `None`). -/
def pyGet (d : List (String × PyVal)) (k : String) : PyVal :=
  pyGetD d k .vnone

/-- The exceptions the client can raise, modelling lines of `news.py`:
transport failures (`response.raise_for_status()`), the explicit
`Exception`s of `_search_chunk`, the `RuntimeError` for an incomplete
query, and the dynamic errors Python itself raises on the sloppy paths. -/
inductive Err : Type where
  /-- `requests.HTTPError` from `raise_for_status()` on a non-success status. -/
  | transport : Err
  /-- `Exception(...)` raised in `_search_chunk` (lines 81 and 84). -/
  | queryRejected (msg : String) : Err
  /-- `RuntimeError("Query did not complete successfully: ...")` (line 88),
  carrying the terminal status payload. -/
  | queryIncomplete (status : List (String × PyVal)) : Err
  /-- `AttributeError`: `.get` called on a value of type `tyName` that has
  no such attribute (line 80 with a non-dict `query_id`). -/
  | attrError (tyName : String) : Err
  /-- `TypeError`: ordering comparison between an int and a non-int
  (line 63 when `total_results` is not an integer). -/
  | typeError : Err
  /-- `KeyError` on a missing dict key (line 30, `data['state']`). -/
  | keyError (k : String) : Err

/-- An article: the orchestration code reads only `item.get("score", 0)`,
so we keep the (possibly missing) score and an opaque tag for the rest. -/
structure Article : Type where
  score : Option ℚ
  tag : ℕ
deriving DecidableEq

/-- `a.get("score", 0)`: the score of an article, a missing score read as 0. -/
def scoreD (a : Article) : ℚ :=
  a.score.getD 0

/-- Transport outcome of the one `requests.post(QUERY_URL, ...)` call of
`send_initial_query`: either a non-success HTTP status (so that
`raise_for_status()` raises), or a success whose `response.json()` is the
dict `d`. -/
inductive SubmitResp : Type where
  | httpFail : SubmitResp
  | ok (d : List (String × PyVal)) : SubmitResp

/-- The remote system's behavior for one chunk: the submit response, the
status-fetch responses and the page-fetch responses.  Status and page
fetches are functions of the `query_id` value the client sends (and of
the fetch index resp. page number); `none` models a non-success HTTP
status on that fetch. -/
structure ChunkBehavior : Type where
  submit : SubmitResp
  poll : PyVal → ℕ → Option (List (String × PyVal))
  pages : PyVal → ℕ → Option (List Article)

/-- The body of `send_initial_query` before its `except` clause: transport
failure raises (`raise_for_status()`), a missing `state` key raises
(`KeyError` at `data['state']`); `state == 'SUCCESS'` returns
`data.get('query_id')`; any other state returns the payload itself. -/
def sendInitialQueryBody (resp : SubmitResp) : Except Err PyVal :=
  match resp with
  | .httpFail => .error .transport
  | .ok d =>
    match d.lookup "state" with
    | none => .error (.keyError "state")
    | some st =>
      if st.eqStr "SUCCESS" then .ok (pyGet d "query_id")
      else .ok (.vdict d)

/-- `send_initial_query` (lines 13–36 of `news.py`): the whole body is in a
`try ... except Exception`, so any raised error is caught, printed, and
the function falls through returning `None` (`PyVal.vnone`). -/
def send_initial_query (resp : SubmitResp) : PyVal :=
  match sendInitialQueryBody resp with
  | .ok v => v
  | .error _ => .vnone

/-- `poll_for_results` (lines 38–53): fetch the status (fetch number `idx`);
while `data.get('state') == 'PENDING'`, sleep and re-fetch.  `fetch i =
none` models a failed fetch (`raise_for_status()` raises, propagating).
The loop is unbounded in the source; `fuel` bounds the number of fetches
in the model, `none` meaning the loop is still running after `fuel`
fetches. -/
def pollFuel (fetch : ℕ → Option (List (String × PyVal))) :
    ℕ → ℕ → Option (Except Err (List (String × PyVal)))
  | 0, _ => none
  | fuel + 1, idx =>
    match fetch idx with
    | none => some (.error .transport)
    | some d =>
      if (pyGet d "state").eqStr "PENDING" then pollFuel fetch fuel (idx + 1)
      else some (.ok d)

/-- `poll_for_results` run from the initial fetch. -/
def poll_for_results (fetch : ℕ → Option (List (String × PyVal))) (fuel : ℕ) :
    Option (Except Err (List (String × PyVal))) :=
  pollFuel fetch fuel 0

/-- The page loop of `fetch_all_articles` (lines 63–70), entered with the
current `page` counter: while `(page - 1) * 25 < total_results`, fetch the
page, append `data.get('articles', [])`, and move to the next page.
`pages p = none` models a failed page fetch; a page payload is abstracted
to its article list. -/
def fetchPagesFrom (pages : ℕ → Option (List Article)) (total : ℤ) (page : ℕ) :
    Except Err (List Article) :=
  if _h : ((page : ℤ) - 1) * 25 < total then
    match pages page with
    | none => .error .transport
    | some arts =>
      match fetchPagesFrom pages total (page + 1) with
      | .error e => .error e
      | .ok rest => .ok (arts ++ rest)
  else .ok []
termination_by (total - ((page : ℤ) - 1) * 25).toNat
decreasing_by
  simp only [Nat.cast_add, Nat.cast_one]
  omega

/-- `fetch_all_articles` (lines 55–71): paginate from page 1, 25 articles
per page. -/
def fetch_all_articles (pages : ℕ → Option (List Article)) (total : ℤ) :
    Except Err (List Article) :=
  fetchPagesFrom pages total 1

/-- Lines 79–81 of `_search_chunk`:
`if isinstance(query_id, str) == False: if query_id.get('message'): raise`.
On a dict with a truthy `message`, raises `Exception(str(message))`; on a
non-str non-dict (`None`, an int), the `.get` attribute access itself
raises `AttributeError`. -/
def messageCheck (query_id : PyVal) : Except Err Unit :=
  if query_id.isStr then .ok ()
  else
    match query_id with
    | .vdict d =>
      if (pyGet d "message").truthy then
        .error (.queryRejected (pyGet d "message").pyStr)
      else .ok ()
    | v => .error (.attrError v.typeName)

/-- Lines 83–84 of `_search_chunk`:
`if not query_id: raise Exception("Failed to retrieve query ID.")`. -/
def idCheck (query_id : PyVal) : Except Err Unit :=
  if query_id.truthy then .ok ()
  else .error (.queryRejected "Failed to retrieve query ID.")

/-- Lines 86–95 of `_search_chunk`: poll for results with the obtained
`query_id`; if the terminal `state` is not `'SUCCESS'`, raise
`RuntimeError`; read `totalArticles` (default 0); if it `== 0`, return
`[]` without any page fetch; otherwise paginate (a non-int total would
make the page-loop comparison raise `TypeError`). -/
def afterSubmit (b : ChunkBehavior) (query_id : PyVal) (fuel : ℕ) :
    Option (Except Err (List Article)) :=
  match poll_for_results (b.poll query_id) fuel with
  | none => none
  | some (.error e) => some (.error e)
  | some (.ok d) =>
    if !(pyGet d "state").eqStr "SUCCESS" then
      some (.error (.queryIncomplete d))
    else
      let total := pyGetD d "totalArticles" (.vint 0)
      if total.eqInt 0 then some (.ok [])
      else
        match total with
        | .vint n => some (fetch_all_articles (b.pages query_id) n)
        | _ => some (.error .typeError)

/-- `_search_chunk` (lines 73–95): submit, vet the returned `query_id`
(lines 79–84), then poll and paginate. -/
def searchChunk (b : ChunkBehavior) (fuel : ℕ) :
    Option (Except Err (List Article)) :=
  let query_id := send_initial_query b.submit
  match messageCheck query_id with
  | .error e => some (.error e)
  | .ok _ =>
    match idCheck query_id with
    | .error e => some (.error e)
    | .ok _ => afterSubmit b query_id fuel

/-! ## The top-level `news` function (lines 97–155)

Timestamps are integers in seconds; `datetime.timedelta(days=7)` is
`weekSecs` and `(end_dt - start_dt).days` is `Int.fdiv` by `daySecs`.
The results of `_search_chunk` on each sub-range are supplied by an
oracle `chunkFn : ℤ → ℤ → Except Err (List Article)` mapping the
sub-range endpoints to the chunk's outcome (`error` = the chunk raised),
which lets the theorems quantify over remote behaviors. -/

/-- Seconds in a day. -/
def daySecs : ℤ := 86400

/-- `datetime.timedelta(days=7)` in seconds. -/
def weekSecs : ℤ := 7 * daySecs

/-- `(end_dt - start_dt).days`: floor division of the range length by one
day. -/
def deltaDays (startDate endDate : ℤ) : ℤ :=
  (endDate - startDate).fdiv daySecs

/-- The sub-ranges visited by the chunking loop (lines 137–147):
`current_end = current_start + timedelta(days=7)`, truncated to `end_dt`,
repeated while `current_start < end_dt`. -/
def chunkRanges (cur endDate : ℤ) : List (ℤ × ℤ) :=
  if _h : cur < endDate then
    (cur, min (cur + weekSecs) endDate) ::
      chunkRanges (min (cur + weekSecs) endDate) endDate
  else []
termination_by (endDate - cur).toNat
decreasing_by
  simp only [weekSecs, daySecs] at *
  omega

/-- The chunking loop itself: run `_search_chunk` on each sub-range in
sequence, extending the accumulator (`all_articles.extend(articles)`);
a chunk that raises aborts the loop with that error. -/
def runChunks (chunkFn : ℤ → ℤ → Except Err (List Article))
    (cur endDate : ℤ) : Except Err (List Article) :=
  if _h : cur < endDate then
    match chunkFn cur (min (cur + weekSecs) endDate) with
    | .error e => .error e
    | .ok arts =>
      match runChunks chunkFn (min (cur + weekSecs) endDate) endDate with
      | .error e => .error e
      | .ok rest => .ok (arts ++ rest)
  else .ok []
termination_by (endDate - cur).toNat
decreasing_by
  simp only [weekSecs, daySecs] at *
  omega

/-- The comparator of `all_articles.sort(key=lambda a: a.get("score", 0),
reverse=True)`: a stable sort on the key, descending. -/
def scoreLe (a b : Article) : Bool :=
  scoreD b ≤ scoreD a

/-- Line 149: stable sort of the accumulated articles by score descending. -/
def sortScoreDesc (l : List Article) : List Article :=
  l.mergeSort scoreLe

/-- Line 153: `[item for item in all_articles if item.get("score", 0) >
0.00055]`.  Note the hard-coded literal `0.00055`. -/
def filterScore (l : List Article) : List Article :=
  l.filter (fun a => scoreD a > (0.00055 : ℚ))

set_option linter.unusedVariables false in
/-- `news` (lines 97–155): compute `delta_days`; if it exceeds 7, run the
chunking loop and stable-sort the accumulated articles by score
descending; otherwise run a single chunk on the whole range.  Finally
filter with the hard-coded literal `0.00055` — the `threshold` parameter
of the source is accepted but never read, exactly as in the source. -/
def news (chunkFn : ℤ → ℤ → Except Err (List Article))
    (startDate endDate : ℤ) (threshold : ℚ) : Except Err (List Article) :=
  let delta_days := deltaDays startDate endDate
  if delta_days > 7 then
    match runChunks chunkFn startDate endDate with
    | .error e => .error e
    | .ok all_articles => .ok (filterScore (sortScoreDesc all_articles))
  else
    match chunkFn startDate endDate with
    | .error e => .error e
    | .ok all_articles => .ok (filterScore all_articles)

/-! ## Helper lemmas -/

/-- One iteration of the chunking loop. -/
lemma chunkRanges_step {cur endDate : ℤ} (h : cur < endDate) :
    chunkRanges cur endDate =
      (cur, min (cur + weekSecs) endDate) ::
        chunkRanges (min (cur + weekSecs) endDate) endDate := by
  rw [chunkRanges]
  simp [h]

/-- The chunking loop exits when `current_start` has reached `end_dt`. -/
lemma chunkRanges_done {cur endDate : ℤ} (h : ¬ cur < endDate) :
    chunkRanges cur endDate = [] := by
  rw [chunkRanges]
  simp [h]

/-- Closed form of the chunk partition: a range of exactly `7 * N + r`
days (`0 < r < 7`) splits into `N` week-long ranges followed by one
`r`-day range. -/
lemma chunkRanges_closedForm :
    ∀ (N : ℕ) (s e r : ℤ), 0 < r → r < 7 → e - s = (7 * N + r) * daySecs →
      chunkRanges s e =
        (List.range N).map
          (fun i : ℕ => (s + (i : ℤ) * weekSecs, s + ((i : ℤ) + 1) * weekSecs)) ++
          [(s + N * weekSecs, e)]
  | 0, s, e, r, h1, h2, he => by
    have hs : s < e := by simp only [daySecs] at he; omega
    have hmin : min (s + weekSecs) e = e := by
      simp only [weekSecs, daySecs] at *; omega
    rw [chunkRanges_step hs, hmin, chunkRanges_done (lt_irrefl e)]
    simp
  | N + 1, s, e, r, h1, h2, he => by
    have hs : s < e := by simp only [daySecs] at he; push_cast at he; nlinarith
    have hlt : s + weekSecs < e := by
      simp only [weekSecs, daySecs] at *; push_cast at he; nlinarith
    have hmin : min (s + weekSecs) e = s + weekSecs := min_eq_left hlt.le
    have he' : e - (s + weekSecs) = (7 * N + r) * daySecs := by
      simp only [weekSecs, daySecs] at *; push_cast at he ⊢; linarith
    rw [chunkRanges_step hs, hmin,
      chunkRanges_closedForm N (s + weekSecs) e r h1 h2 he']
    rw [List.range_succ_eq_map]
    simp only [List.map_cons, List.map_map, List.cons_append]
    congr 1
    · simp only [Prod.mk.injEq]
      constructor <;> (push_cast; ring)
    congr 1
    · apply List.map_congr_left
      intro i _
      simp only [Function.comp_apply, Prod.mk.injEq]
      constructor <;> (push_cast; ring)
    · simp only [List.cons.injEq, Prod.mk.injEq, and_true]
      push_cast
      ring

/-! ## Claims -/

/-- C2: a date range of exactly `N*7 + r` days (`0 < r < 7`, `N ≥ 1`, so
the multi-chunk branch is taken: `deltaDays > 7`) is partitioned into
exactly `N+1` consecutive sub-ranges: the first `N` of exactly 7 days
each, the last of `r` days; each sub-range starts where the previous one
ends, the first starts at `start` and the last ends at `end`, so the
union covers `[start, end)` with no gaps or overlaps. -/
theorem chunk_partition (N : ℕ) (r s e : ℤ) (hN : 1 ≤ N) (h1 : 0 < r)
    (h2 : r < 7) (he : e - s = (7 * N + r) * daySecs) :
    7 < deltaDays s e ∧
    (chunkRanges s e).length = N + 1 ∧
    (∀ i : ℕ, i < N →
      (chunkRanges s e)[i]? =
        some (s + (i : ℤ) * weekSecs, s + ((i : ℤ) + 1) * weekSecs)) ∧
    (chunkRanges s e)[N]? = some (s + (N : ℤ) * weekSecs, e) ∧
    e - (s + (N : ℤ) * weekSecs) = r * daySecs ∧
    (∀ i : ℕ, i < N → ∀ p q : ℤ × ℤ,
      (chunkRanges s e)[i]? = some p → (chunkRanges s e)[i + 1]? = some q →
        p.2 = q.1) := by
  have hcf := chunkRanges_closedForm N s e r h1 h2 he
  have hidx : ∀ i : ℕ, i < N →
      (chunkRanges s e)[i]? =
        some (s + (i : ℤ) * weekSecs, s + ((i : ℤ) + 1) * weekSecs) := by
    intro i hi
    rw [hcf, List.getElem?_append_left (by simp [hi]), List.getElem?_map,
      List.getElem?_range hi]
    rfl
  have hlast : (chunkRanges s e)[N]? = some (s + (N : ℤ) * weekSecs, e) := by
    rw [hcf, List.getElem?_append_right (by simp)]
    simp
  refine ⟨?_, ?_, hidx, hlast, ?_, ?_⟩
  · have hdd : deltaDays s e = 7 * N + r := by
      rw [deltaDays, he, Int.mul_fdiv_cancel _ (by norm_num [daySecs])]
    rw [hdd]
    omega
  · rw [hcf]
    simp
  · simp only [weekSecs, daySecs] at he ⊢
    push_cast at he ⊢
    linarith
  · intro i hi p q hp hq
    rw [hidx i hi] at hp
    rcases Nat.lt_or_ge (i + 1) N with h | h
    · rw [hidx (i + 1) h] at hq
      cases hp
      cases hq
      push_cast
      ring
    · have hiN : i + 1 = N := by omega
      subst hiN
      rw [hlast] at hq
      cases hp
      cases hq
      push_cast
      ring

/-- Witness for C2 at `N = 1`, `r = 3`: a 10-day range starting at 0. -/
theorem chunk_partition_witness :
    7 < deltaDays 0 864000 ∧
    (chunkRanges 0 864000).length = 1 + 1 ∧
    (∀ i : ℕ, i < 1 →
      (chunkRanges 0 864000)[i]? =
        some (0 + (i : ℤ) * weekSecs, 0 + ((i : ℤ) + 1) * weekSecs)) ∧
    (chunkRanges 0 864000)[1]? = some (0 + (1 : ℤ) * weekSecs, 864000) ∧
    (864000 : ℤ) - (0 + (1 : ℤ) * weekSecs) = 3 * daySecs ∧
    (∀ i : ℕ, i < 1 → ∀ p q : ℤ × ℤ,
      (chunkRanges 0 864000)[i]? = some p →
        (chunkRanges 0 864000)[i + 1]? = some q → p.2 = q.1) :=
  chunk_partition 1 3 0 864000 (by norm_num) (by norm_num) (by norm_num)
    (by norm_num [daySecs])

/-- One iteration of the chunk loop of `news` (lines 138–147). -/
lemma runChunks_step {chunkFn : ℤ → ℤ → Except Err (List Article)}
    {cur endDate : ℤ} (h : cur < endDate) :
    runChunks chunkFn cur endDate =
      match chunkFn cur (min (cur + weekSecs) endDate) with
      | .error e => .error e
      | .ok arts =>
        match runChunks chunkFn (min (cur + weekSecs) endDate) endDate with
        | .error e => .error e
        | .ok rest => .ok (arts ++ rest) := by
  rw [runChunks]
  simp [h]

/-- The chunk loop of `news` exits once `current_start` reaches `end_dt`. -/
lemma runChunks_done {chunkFn : ℤ → ℤ → Except Err (List Article)}
    {cur endDate : ℤ} (h : ¬ cur < endDate) :
    runChunks chunkFn cur endDate = .ok [] := by
  rw [runChunks]
  simp [h]

/-- Sequential execution of the chunks of a given range list, aborting on
the first error — the list form of the chunk loop. -/
def chunksSeq (chunkFn : ℤ → ℤ → Except Err (List Article)) :
    List (ℤ × ℤ) → Except Err (List Article)
  | [] => .ok []
  | (a, b) :: rest =>
    match chunkFn a b with
    | .error e => .error e
    | .ok arts =>
      match chunksSeq chunkFn rest with
      | .error e => .error e
      | .ok more => .ok (arts ++ more)

/-- The chunk loop is the sequential execution of the partitioned ranges. -/
lemma runChunks_eq_chunksSeq (chunkFn : ℤ → ℤ → Except Err (List Article))
    (cur endDate : ℤ) :
    runChunks chunkFn cur endDate =
      chunksSeq chunkFn (chunkRanges cur endDate) := by
  by_cases h : cur < endDate
  · rw [runChunks_step h, chunkRanges_step h]
    cases hc : chunkFn cur (min (cur + weekSecs) endDate) with
    | error e => simp [chunksSeq, hc]
    | ok arts =>
      simp only [chunksSeq, hc,
        runChunks_eq_chunksSeq chunkFn (min (cur + weekSecs) endDate) endDate]
  · rw [chunkRanges_done h, runChunks_done h]
    simp [chunksSeq]
termination_by (endDate - cur).toNat
decreasing_by
  simp only [weekSecs, daySecs] at *
  omega

/-- The multi-chunk branch of `news` (`delta_days > 7`). -/
lemma news_multi {chunkFn : ℤ → ℤ → Except Err (List Article)}
    {s e : ℤ} {t : ℚ} (h : 7 < deltaDays s e) :
    news chunkFn s e t =
      match runChunks chunkFn s e with
      | .error e' => .error e'
      | .ok all_articles => .ok (filterScore (sortScoreDesc all_articles)) := by
  rw [news]
  simp [h]

/-- The single-chunk branch of `news` (`delta_days ≤ 7`). -/
lemma news_single {chunkFn : ℤ → ℤ → Except Err (List Article)}
    {s e : ℤ} {t : ℚ} (h : deltaDays s e ≤ 7) :
    news chunkFn s e t =
      match chunkFn s e with
      | .error e' => .error e'
      | .ok all_articles => .ok (filterScore all_articles) := by
  rw [news]
  simp [not_lt.mpr h]

/-- If every status fetch from `idx` on up to the first non-`PENDING`
response at `i0` succeeds, the poll loop returns that response. -/
lemma pollFuel_reaches (f : ℕ → List (String × PyVal)) :
    ∀ (fuel idx i0 : ℕ), idx ≤ i0 → i0 - idx < fuel →
      ¬ (pyGet (f i0) "state").eqStr "PENDING" = true →
      (∀ j, idx ≤ j → j < i0 → (pyGet (f j) "state").eqStr "PENDING" = true) →
      pollFuel (fun i => some (f i)) fuel idx = some (.ok (f i0))
  | 0, idx, i0, _, hfuel, _, _ => by omega
  | fuel + 1, idx, i0, hle, hfuel, hterm, hpend => by
    rw [pollFuel]
    dsimp only
    rcases Nat.lt_or_ge idx i0 with h | h
    · rw [if_pos (hpend idx le_rfl h)]
      exact pollFuel_reaches f fuel (idx + 1) i0 (by omega) (by omega) hterm
        (fun j h1 h2 => hpend j (by omega) h2)
    · have hidx : idx = i0 := by omega
      subst hidx
      rw [if_neg hterm]

/-- While every status fetch reports `PENDING`, the poll loop never
returns, however many fetches it is allowed. -/
lemma pollFuel_pending (f : ℕ → List (String × PyVal))
    (hall : ∀ j, (pyGet (f j) "state").eqStr "PENDING" = true) :
    ∀ (fuel idx : ℕ), pollFuel (fun i => some (f i)) fuel idx = none
  | 0, _ => rfl
  | fuel + 1, idx => by
    rw [pollFuel]
    dsimp only
    rw [if_pos (hall idx)]
    exact pollFuel_pending f hall fuel (idx + 1)

/-- C9: for every sequence of successfully fetched status responses, the
poller returns the first response whose state is not `PENDING`, whatever
that state is (given enough fuel, i.e. the unbounded source loop reaches
it); and while every response is `PENDING` the loop runs forever (returns
`none` at every fuel, i.e. the source loop never terminates): there is no
timeout and no maximum attempt count. -/
theorem poll_returns_first_non_pending (f : ℕ → List (String × PyVal)) :
    (∀ i0 : ℕ, ¬ (pyGet (f i0) "state").eqStr "PENDING" = true →
      (∀ j, j < i0 → (pyGet (f j) "state").eqStr "PENDING" = true) →
      ∀ fuel, i0 < fuel →
        poll_for_results (fun i => some (f i)) fuel = some (.ok (f i0))) ∧
    ((∀ j, (pyGet (f j) "state").eqStr "PENDING" = true) →
      ∀ fuel, poll_for_results (fun i => some (f i)) fuel = none) := by
  constructor
  · intro i0 hterm hpend fuel hfuel
    exact pollFuel_reaches f fuel 0 i0 (Nat.zero_le _) (by omega) hterm
      (fun j _ h2 => hpend j h2)
  · intro hall fuel
    exact pollFuel_pending f hall fuel 0

/-- Witness for C9: two `PENDING` responses then a `FAILED` one is
returned by the third fetch; an all-`PENDING` stream yields no result in
5 fetches. -/
theorem poll_returns_first_non_pending_witness :
    poll_for_results
      (fun i => some (if i < 2 then [("state", PyVal.vstr "PENDING")]
        else [("state", PyVal.vstr "FAILED")])) 3 =
      some (.ok [("state", PyVal.vstr "FAILED")]) ∧
    poll_for_results (fun _ => some [("state", PyVal.vstr "PENDING")]) 5 =
      none := by
  constructor
  · exact (poll_returns_first_non_pending
      (fun i => if i < 2 then [("state", PyVal.vstr "PENDING")]
        else [("state", PyVal.vstr "FAILED")])).1 2
      (by decide) (by decide) 3 (by decide)
  · exact (poll_returns_first_non_pending
      (fun _ => [("state", PyVal.vstr "PENDING")])).2 (fun _ => by decide) 5

/-- Closed form of the page loop entered at `page`, when the remaining
pages `page..n` all succeed and `n` is the page count forced by `total`
(`(n-1)*25 < total ≤ n*25`). -/
lemma fetchPagesFrom_closed (f : ℕ → List Article)
    (pages : ℕ → Option (List Article)) (total : ℤ) (n : ℕ)
    (hn1 : ((n : ℤ) - 1) * 25 < total) (hn2 : total ≤ (n : ℤ) * 25)
    (hp : ∀ p : ℕ, 1 ≤ p → p ≤ n → pages p = some (f p)) :
    ∀ (k page : ℕ), page + k = n + 1 → 1 ≤ page →
      fetchPagesFrom pages total page =
        .ok (((List.range k).map (fun i => f (page + i))).flatten)
  | 0, page, hpk, _ => by
    have hpage : page = n + 1 := by omega
    subst hpage
    rw [fetchPagesFrom, dif_neg (by push_cast; linarith)]
    simp
  | k + 1, page, hpk, hp1 => by
    have hpn : page ≤ n := by omega
    have hcond : ((page : ℤ) - 1) * 25 < total := by
      have : (page : ℤ) ≤ (n : ℤ) := by exact_mod_cast hpn
      nlinarith
    rw [fetchPagesFrom, dif_pos hcond, hp page hp1 hpn]
    dsimp only
    rw [fetchPagesFrom_closed f pages total n hn1 hn2 hp k (page + 1)
      (by omega) (by omega)]
    dsimp only
    congr 1
    rw [List.range_succ_eq_map, List.map_cons, List.flatten_cons, List.map_map]
    congr 1
    congr 1
    apply List.map_congr_left
    intro i _
    simp only [Function.comp_apply]
    congr 1
    omega

set_option linter.unusedVariables false in
/-- C8: for `total > 0` with `n` the unique page count satisfying
`(n-1)*25 < total ≤ n*25` (that is, `n = ⌈total/25⌉`), the paginator
fetches pages `1..n` in order and returns the concatenation of their
article lists, with no deduplication.  The behavior function `pages` is
constrained only on pages `1..n`, so the result does not depend on any
later page: exactly `n` pages are consulted, and the loop stops as soon
as `pages fetched × 25 ≥ total`. -/
theorem paginator_fetches_all (f : ℕ → List Article)
    (pages : ℕ → Option (List Article)) (total : ℤ) (n : ℕ)
    (h0 : 0 < total) (hn1 : ((n : ℤ) - 1) * 25 < total)
    (hn2 : total ≤ (n : ℤ) * 25)
    (hp : ∀ p : ℕ, 1 ≤ p → p ≤ n → pages p = some (f p)) :
    fetch_all_articles pages total =
      .ok (((List.range n).map (fun i => f (1 + i))).flatten) := by
  rw [fetch_all_articles,
    fetchPagesFrom_closed f pages total n hn1 hn2 hp n 1 (by omega) le_rfl]

/-- Witness for C8: `total = 30` forces 2 pages; each page `p` holds one
article tagged `p`, and the result is their in-order concatenation. -/
theorem paginator_fetches_all_witness :
    fetch_all_articles (fun p => some [⟨some 1, p⟩]) 30 =
      .ok [⟨some 1, 1⟩, ⟨some 1, 2⟩] := by
  exact paginator_fetches_all (fun p => [⟨some 1, p⟩])
    (fun p => some [⟨some 1, p⟩]) 30 2 (by norm_num) (by norm_num)
    (by norm_num) (fun p _ _ => rfl)

/-- C7: if the terminal poll status of a chunk has state `SUCCESS` and
reports `totalArticles = 0`, the chunk orchestrator returns the empty
article list, and it does so for every page-fetch behavior whatsoever:
the paginator is never consulted for that chunk. -/
theorem chunk_zero_total_short_circuit (b : ChunkBehavior) (fuel : ℕ)
    (qid : PyVal) (d : List (String × PyVal))
    (hq : send_initial_query b.submit = qid)
    (hmsg : messageCheck qid = .ok ())
    (hid : idCheck qid = .ok ())
    (hpoll : poll_for_results (b.poll qid) fuel = some (.ok d))
    (hstate : (pyGet d "state").eqStr "SUCCESS" = true)
    (htot : (pyGetD d "totalArticles" (.vint 0)).eqInt 0 = true) :
    searchChunk b fuel = some (.ok []) ∧
    ∀ pg : PyVal → ℕ → Option (List Article),
      searchChunk ⟨b.submit, b.poll, pg⟩ fuel = some (.ok []) := by
  have key : ∀ pg : PyVal → ℕ → Option (List Article),
      searchChunk ⟨b.submit, b.poll, pg⟩ fuel = some (.ok []) := by
    intro pg
    rw [searchChunk]
    dsimp only
    rw [hq, hmsg, hid]
    rw [afterSubmit]
    dsimp only
    rw [hpoll]
    dsimp only
    rw [hstate]
    simp only [Bool.not_true, Bool.false_eq_true, if_false, htot, if_true]
  constructor
  · have hb : b = ⟨b.submit, b.poll, b.pages⟩ := rfl
    rw [hb]
    exact key b.pages
  · exact key

/-- Witness for C7: a chunk whose submission yields handle `"q"` and whose
first poll reports `SUCCESS` with `totalArticles = 0` returns `[]` even
though every page fetch would blow up (here: fail at the transport). -/
theorem chunk_zero_total_short_circuit_witness :
    searchChunk
      ⟨.ok [("state", PyVal.vstr "SUCCESS"), ("query_id", PyVal.vstr "q")],
        fun _ _ => some [("state", PyVal.vstr "SUCCESS"),
          ("totalArticles", PyVal.vint 0)],
        fun _ _ => none⟩ 1 = some (.ok []) :=
  (chunk_zero_total_short_circuit
    ⟨.ok [("state", PyVal.vstr "SUCCESS"), ("query_id", PyVal.vstr "q")],
      fun _ _ => some [("state", PyVal.vstr "SUCCESS"),
        ("totalArticles", PyVal.vint 0)],
      fun _ _ => none⟩ 1 (PyVal.vstr "q")
    [("state", PyVal.vstr "SUCCESS"), ("totalArticles", PyVal.vint 0)]
    rfl rfl rfl rfl rfl rfl).1

/-- The poll loop can only fail with a transport error. -/
lemma pollFuel_error_transport (fetch : ℕ → Option (List (String × PyVal))) :
    ∀ (fuel idx : ℕ) (e : Err),
      pollFuel fetch fuel idx = some (.error e) → e = .transport
  | 0, idx, e, h => by simp [pollFuel] at h
  | fuel + 1, idx, e, h => by
    rw [pollFuel] at h
    cases hf : fetch idx with
    | none =>
      rw [hf] at h
      dsimp only at h
      injection h with h1
      injection h1 with h2
      exact h2.symm
    | some d =>
      rw [hf] at h
      dsimp only at h
      split at h
      · exact pollFuel_error_transport fetch fuel (idx + 1) e h
      · exact absurd h (by simp)

/-- The page loop can only fail with a transport error. -/
lemma fetchPagesFrom_error_transport (pages : ℕ → Option (List Article))
    (total : ℤ) (page : ℕ) (e : Err)
    (h : fetchPagesFrom pages total page = .error e) : e = .transport := by
  rw [fetchPagesFrom] at h
  split at h
  · cases hp : pages page with
    | none =>
      rw [hp] at h
      injection h with h1
      exact h1.symm
    | some arts =>
      rw [hp] at h
      dsimp only at h
      split at h
      · rename_i e' hrec
        injection h with h1
        rw [← h1]
        exact fetchPagesFrom_error_transport pages total (page + 1) e' hrec
      · exact absurd h (by simp)
  · exact absurd h (by simp)
termination_by (total - ((page : ℤ) - 1) * 25).toNat
decreasing_by
  simp only [Nat.cast_add, Nat.cast_one]
  omega

/-- After submission, the remaining pipeline (poll, then paginate) can
fail only with a transport error, an incomplete-query error, or a type
error — never with a rejection. -/
lemma afterSubmit_no_reject (b : ChunkBehavior) (qid : PyVal) (fuel : ℕ)
    (m : String) :
    afterSubmit b qid fuel ≠ some (.error (.queryRejected m)) := by
  rw [afterSubmit]
  cases hp : poll_for_results (b.poll qid) fuel with
  | none => simp
  | some r =>
    cases r with
    | error e =>
      have he : e = .transport :=
        pollFuel_error_transport (b.poll qid) fuel 0 e hp
      subst he
      simp
    | ok d =>
      dsimp only
      split
      · simp
      · split
        · simp
        · split
          · rename_i n htot
            intro hcon
            injection hcon with h1
            rw [fetch_all_articles] at h1
            have h2 := fetchPagesFrom_error_transport (b.pages qid) n 1
              (.queryRejected m) h1
            simp at h2
          · simp

/-- C10: when submission returns a non-string, non-empty error payload
(state present and ≠ `SUCCESS`) that has no `message` field, the chunk
orchestrator raises no rejection at all: the raw payload is passed onward
as the query identifier into the poll phase, so the rejection can only be
detected downstream. -/
theorem chunk_error_payload_flows_to_poll (b : ChunkBehavior) (fuel : ℕ)
    (d : List (String × PyVal)) (st : PyVal)
    (hsub : b.submit = .ok d)
    (hst : d.lookup "state" = some st)
    (hnsucc : st.eqStr "SUCCESS" = false)
    (hne : d ≠ [])
    (hnomsg : d.lookup "message" = none) :
    searchChunk b fuel = afterSubmit b (.vdict d) fuel ∧
    ∀ m : String, searchChunk b fuel ≠ some (.error (.queryRejected m)) := by
  have hq : send_initial_query b.submit = .vdict d := by
    rw [hsub, send_initial_query, sendInitialQueryBody]
    rw [hst]
    simp [hnsucc]
  have hmsg : messageCheck (.vdict d) = .ok () := by
    rw [messageCheck]
    simp [PyVal.isStr, pyGet, pyGetD, hnomsg, PyVal.truthy]
  have hid : idCheck (.vdict d) = .ok () := by
    rw [idCheck]
    simp [PyVal.truthy, hne]
  have hrun : searchChunk b fuel = afterSubmit b (.vdict d) fuel := by
    rw [searchChunk]
    rw [hq, hmsg, hid]
  exact ⟨hrun, fun m => hrun ▸ afterSubmit_no_reject b (.vdict d) fuel m⟩

/-- Witness for C10: payload `{"state": "FAILURE", "code": 7}` (no
`message`) flows into the poll phase as the query identifier. -/
theorem chunk_error_payload_flows_to_poll_witness :
    searchChunk
      ⟨.ok [("state", PyVal.vstr "FAILURE"), ("code", PyVal.vint 7)],
        fun _ _ => some [("state", PyVal.vstr "ERROR")], fun _ _ => none⟩ 1 =
      afterSubmit
        ⟨.ok [("state", PyVal.vstr "FAILURE"), ("code", PyVal.vint 7)],
          fun _ _ => some [("state", PyVal.vstr "ERROR")], fun _ _ => none⟩
        (.vdict [("state", PyVal.vstr "FAILURE"), ("code", PyVal.vint 7)])
        1 :=
  (chunk_error_payload_flows_to_poll
    ⟨.ok [("state", PyVal.vstr "FAILURE"), ("code", PyVal.vint 7)],
      fun _ _ => some [("state", PyVal.vstr "ERROR")], fun _ _ => none⟩ 1
    [("state", PyVal.vstr "FAILURE"), ("code", PyVal.vint 7)]
    (PyVal.vstr "FAILURE") rfl rfl rfl (by simp) rfl).1

/-- Counterexample to C5: on a transport-level failure of the submit call
the Query Submitter does NOT propagate a transport error — it returns the
normal value `None`, and the chunk orchestrator consequently fails with an
`AttributeError`, not with the transport error. -/
theorem submit_transport_not_propagated :
    send_initial_query .httpFail = PyVal.vnone ∧
    searchChunk ⟨.httpFail, fun _ _ => none, fun _ _ => none⟩ 1 ≠
      some (.error Err.transport) := by
  refine ⟨rfl, ?_⟩
  have h : searchChunk ⟨.httpFail, fun _ _ => none, fun _ _ => none⟩ 1 =
      some (.error (.attrError "NoneType")) := rfl
  rw [h]
  simp

/-- C5 as amended: for every submission whose transport exchange fails,
the body of `send_initial_query` raises the transport error, but the
surrounding `except` clause catches it and the function returns `None`
(a normal value); the chunk orchestrator then fails with an
`AttributeError` (`None.get('message')`), for every poll/page behavior
and fuel. -/
theorem submit_transport_failure_swallowed
    (poll : PyVal → ℕ → Option (List (String × PyVal)))
    (pages : PyVal → ℕ → Option (List Article)) (fuel : ℕ) :
    sendInitialQueryBody .httpFail = .error .transport ∧
    send_initial_query .httpFail = .vnone ∧
    searchChunk ⟨.httpFail, poll, pages⟩ fuel =
      some (.error (.attrError "NoneType")) :=
  ⟨rfl, rfl, rfl⟩

/-- C6, evaluated at the failing input and at the two working ones: a
submission response `{"state": "SUCCESS"}` with no `query_id` at all makes
the chunk orchestrator crash with `AttributeError` on `None` — not the
generic rejection the claim promises — while an empty-string `query_id`
does produce the generic `"Failed to retrieve query ID."` rejection and
an error payload with a `message` produces a rejection carrying it. -/
theorem chunk_missing_id_eval :
    searchChunk
      ⟨.ok [("state", PyVal.vstr "SUCCESS")],
        fun _ _ => none, fun _ _ => none⟩ 1 =
      some (.error (.attrError "NoneType")) ∧
    searchChunk
      ⟨.ok [("state", PyVal.vstr "SUCCESS"), ("query_id", PyVal.vstr "")],
        fun _ _ => none, fun _ _ => none⟩ 1 =
      some (.error (.queryRejected "Failed to retrieve query ID.")) ∧
    searchChunk
      ⟨.ok [("state", PyVal.vstr "FAILURE"),
          ("message", PyVal.vstr "bad api key")],
        fun _ _ => none, fun _ _ => none⟩ 1 =
      some (.error (.queryRejected "bad api key")) :=
  ⟨rfl, rfl, rfl⟩

/-- C1, evaluated at the failing input: calling `news` with threshold
`1/2` over a single chunk holding one article of score `1/10` RETURNS the
article — the filter compares against the hard-coded literal `0.00055`,
not against the caller's `threshold`, which the claim says should exclude
it (`1/10 ≤ 1/2`).  The strictness the claim describes does hold, but
only at the constant: an article scoring exactly `0.00055` is excluded
whatever the threshold argument. -/
theorem news_threshold_hardcoded :
    news (fun _ _ => .ok [⟨some (1/10 : ℚ), 0⟩]) 0 86400 (1/2 : ℚ) =
      .ok [⟨some (1/10 : ℚ), 0⟩] ∧
    ¬ ((1/10 : ℚ) > (1/2 : ℚ)) ∧
    news (fun _ _ => .ok [⟨some (0.00055 : ℚ), 1⟩]) 0 86400 (1/2 : ℚ) =
      .ok [] := by
  refine ⟨?_, by norm_num, ?_⟩
  · rw [news_single (by decide)]
    dsimp only
    norm_num [filterScore, scoreD, List.filter]
  · rw [news_single (by decide)]
    dsimp only
    norm_num [filterScore, scoreD, List.filter]

/-- `scoreLe` is transitive. -/
lemma scoreLe_trans : ∀ a b c : Article,
    scoreLe a b → scoreLe b c → scoreLe a c := by
  intro a b c h1 h2
  simp only [scoreLe, decide_eq_true_eq] at *
  exact le_trans h2 h1

/-- `scoreLe` is total. -/
lemma scoreLe_total : ∀ a b : Article, scoreLe a b || scoreLe b a := by
  intro a b
  simp only [scoreLe, Bool.or_eq_true, decide_eq_true_eq]
  exact le_total (scoreD b) (scoreD a)

/-- C3: if the date range spans at most 7 days, `news` runs one chunk and
only filters its articles, preserving the chunk's order (no sort); if it
spans more than 7 days, the accumulated articles are stable-sorted by
score descending (a missing score sorting as 0, via `scoreD`) before the
same filter is applied: there is a permutation `l'` of the accumulated
list that is pairwise score-descending, preserves the relative order of
equal-scored articles, and whose filtering is the result. -/
theorem news_sort_asymmetry (chunkFn : ℤ → ℤ → Except Err (List Article))
    (s e : ℤ) (t : ℚ) (l : List Article) :
    (deltaDays s e ≤ 7 → chunkFn s e = .ok l →
      news chunkFn s e t = .ok (filterScore l)) ∧
    (7 < deltaDays s e → runChunks chunkFn s e = .ok l →
      ∃ l' : List Article, l'.Perm l ∧
        l'.Pairwise (fun a b => scoreD b ≤ scoreD a) ∧
        (∀ a b : Article, scoreD a = scoreD b →
          [a, b].Sublist l → [a, b].Sublist l') ∧
        news chunkFn s e t = .ok (filterScore l')) := by
  constructor
  · intro h1 h2
    rw [news_single h1, h2]
  · intro h1 h2
    refine ⟨sortScoreDesc l, List.mergeSort_perm l scoreLe, ?_, ?_, ?_⟩
    · have hs := List.sorted_mergeSort scoreLe_trans scoreLe_total l
      exact hs.imp (fun h => by
        simpa only [scoreLe, decide_eq_true_eq] using h)
    · intro a b hab hsub
      apply List.pair_sublist_mergeSort scoreLe_trans scoreLe_total ?_ hsub
      simp only [scoreLe, decide_eq_true_eq, hab]
      exact le_refl _
    · rw [news_multi h1, h2]

/-- Witness for C3: a 1-day range is filtered in chunk order; a 10-day
range (two chunks of one article each) is sorted then filtered. -/
theorem news_sort_asymmetry_witness :
    news (fun _ _ => .ok [⟨some 1, 0⟩]) 0 86400 0 = .ok [⟨some 1, 0⟩] ∧
    (∃ l' : List Article, l'.Perm [⟨some 1, 0⟩, ⟨some 1, 0⟩] ∧
      l'.Pairwise (fun a b => scoreD b ≤ scoreD a) ∧
      (∀ a b : Article, scoreD a = scoreD b →
        [a, b].Sublist [⟨some 1, 0⟩, ⟨some 1, 0⟩] → [a, b].Sublist l') ∧
      news (fun _ _ => .ok [⟨some 1, 0⟩]) 0 864000 0 = .ok (filterScore l')) := by
  have hrc : runChunks (fun _ _ => .ok [⟨some 1, 0⟩]) 0 864000 =
      .ok [⟨some 1, 0⟩, ⟨some 1, 0⟩] := by
    rw [runChunks_step (show (0 : ℤ) < 864000 by norm_num),
      show min ((0 : ℤ) + weekSecs) 864000 = 604800 by
        norm_num [weekSecs, daySecs],
      runChunks_step (show (604800 : ℤ) < 864000 by norm_num),
      show min ((604800 : ℤ) + weekSecs) 864000 = 864000 by
        norm_num [weekSecs, daySecs],
      runChunks_done (show ¬ (864000 : ℤ) < 864000 by norm_num)]
    rfl
  constructor
  · rw [(news_sort_asymmetry (fun _ _ => .ok [⟨some 1, 0⟩]) 0 86400 0
      [⟨some 1, 0⟩]).1 (by decide) rfl]
    norm_num [filterScore, scoreD, List.filter]
  · exact (news_sort_asymmetry (fun _ _ => .ok [⟨some 1, 0⟩]) 0 864000 0
      [⟨some 1, 0⟩, ⟨some 1, 0⟩]).2 (by decide) hrc

/-- If the `k`-th range of a list fails and every earlier range succeeds,
the sequential chunk execution fails with exactly the `k`-th error. -/
lemma chunksSeq_error_at (chunkFn : ℤ → ℤ → Except Err (List Article)) :
    ∀ (rs : List (ℤ × ℤ)) (k : ℕ) (a b : ℤ) (err : Err),
      rs[k]? = some (a, b) → chunkFn a b = .error err →
      (∀ j, j < k → ∀ p : ℤ × ℤ, rs[j]? = some p →
        ∃ l, chunkFn p.1 p.2 = .ok l) →
      chunksSeq chunkFn rs = .error err
  | [], k, a, b, err, hk, _, _ => by simp at hk
  | (x, y) :: rest, 0, a, b, err, hk, hfail, _ => by
    simp only [List.getElem?_cons_zero, Option.some.injEq, Prod.mk.injEq]
      at hk
    obtain ⟨rfl, rfl⟩ := hk
    rw [chunksSeq, hfail]
  | (x, y) :: rest, k + 1, a, b, err, hk, hfail, hpre => by
    simp only [List.getElem?_cons_succ] at hk
    obtain ⟨l0, hl0⟩ := hpre 0 (Nat.succ_pos k) (x, y) (by simp)
    dsimp only at hl0
    rw [chunksSeq, hl0]
    dsimp only
    rw [chunksSeq_error_at chunkFn rest k a b err hk hfail
      (fun j hj p hp => hpre (j + 1) (by omega) p (by simpa using hp))]

/-- C4: in a multi-chunk search where the `k`-th sub-range fails (with any
error: transport, rejection, incomplete query, ...) and all earlier
sub-ranges succeed, the whole call fails with exactly that error: no
articles are returned, not even the ones accumulated from the earlier
chunks.  Moreover the result is the same for every chunk behavior that
agrees on the sub-ranges up to and including `k`: the chunks after the
failing one are never run. -/
theorem news_aborts_on_chunk_failure
    (chunkFn : ℤ → ℤ → Except Err (List Article)) (s e : ℤ) (t : ℚ)
    (k : ℕ) (a b : ℤ) (err : Err)
    (hgt : 7 < deltaDays s e)
    (hk : (chunkRanges s e)[k]? = some (a, b))
    (hfail : chunkFn a b = .error err)
    (hpre : ∀ j, j < k → ∀ p : ℤ × ℤ, (chunkRanges s e)[j]? = some p →
      ∃ l, chunkFn p.1 p.2 = .ok l) :
    news chunkFn s e t = .error err ∧
    ∀ chunkFn' : ℤ → ℤ → Except Err (List Article),
      (∀ j, j ≤ k → ∀ p : ℤ × ℤ, (chunkRanges s e)[j]? = some p →
        chunkFn' p.1 p.2 = chunkFn p.1 p.2) →
      news chunkFn' s e t = .error err := by
  have main : ∀ cf : ℤ → ℤ → Except Err (List Article),
      cf a b = .error err →
      (∀ j, j < k → ∀ p : ℤ × ℤ, (chunkRanges s e)[j]? = some p →
        ∃ l, cf p.1 p.2 = .ok l) →
      news cf s e t = .error err := by
    intro cf hf hp
    rw [news_multi hgt, runChunks_eq_chunksSeq,
      chunksSeq_error_at cf (chunkRanges s e) k a b err hk hf hp]
  refine ⟨main chunkFn hfail hpre, ?_⟩
  intro cf' hagree
  apply main cf'
  · have h := hagree k le_rfl (a, b) hk
    dsimp only at h
    rw [h]
    exact hfail
  · intro j hj p hp
    obtain ⟨l, hl⟩ := hpre j hj p hp
    exact ⟨l, by rw [hagree j (le_of_lt hj) p hp]; exact hl⟩

/-- Witness for C4: over a 10-day range the second chunk fails with a
non-`SUCCESS` terminal state error; the first chunk's article is not
returned. -/
theorem news_aborts_on_chunk_failure_witness :
    news
      (fun a _ => if a = 0 then .ok [⟨some 1, 0⟩]
        else .error (.queryIncomplete [("state", PyVal.vstr "FAILED")]))
      0 864000 0 =
      .error (.queryIncomplete [("state", PyVal.vstr "FAILED")]) := by
  have hcr : chunkRanges 0 864000 = [(0, 604800), (604800, 864000)] := by
    rw [chunkRanges_step (by norm_num)]
    rw [show min ((0 : ℤ) + weekSecs) 864000 = 604800 by
      norm_num [weekSecs, daySecs]]
    rw [chunkRanges_step (by norm_num)]
    rw [show min ((604800 : ℤ) + weekSecs) 864000 = 864000 by
      norm_num [weekSecs, daySecs]]
    rw [chunkRanges_done (by norm_num)]
  exact (news_aborts_on_chunk_failure
    (fun a _ => if a = 0 then .ok [⟨some 1, 0⟩]
      else .error (.queryIncomplete [("state", PyVal.vstr "FAILED")]))
    0 864000 0 1 604800 864000
    (.queryIncomplete [("state", PyVal.vstr "FAILED")])
    (by decide) (by rw [hcr]; rfl) (by norm_num)
    (by
      intro j hj p hp
      have hj0 : j = 0 := by omega
      subst hj0
      rw [hcr] at hp
      simp only [List.getElem?_cons_zero, Option.some.injEq] at hp
      subst hp
      exact ⟨[⟨some 1, 0⟩], by norm_num⟩)).1

end AthenaNews
